import Mathlib

namespace IoA

/-!
Shallow embedding of the IoA IM server (`src/im_server/app_copy.py`).

The durable key-value stores (`AutoStoredDict`, `ConfigMilvusWrapper`) are
mapping-like collaborators; we model them as insertion-ordered association
lists with Python-`dict` get/set/contains/pop semantics.  Where a behaviour
of a store on a *missing* key decides a claim and the store's code is not in
`src/`, the definition is marked `Modelled from the spec:` in its doc string.
-/

/-! ### Insertion-ordered dictionary model (Python `dict` semantics) -/

/-- `d[k]` lookup: first (unique) binding for `k`, if any. -/
def dictGet {α : Type} (m : List (String × α)) (k : String) : Option α :=
  match m with
  | [] => none
  | p :: rest => if p.1 = k then some p.2 else dictGet rest k

/-- `k in d`. -/
def dictContains {α : Type} (m : List (String × α)) (k : String) : Bool :=
  match m with
  | [] => false
  | p :: rest => p.1 = k || dictContains rest k

/-- `d[k] = v`: replaces the existing binding in place (keeping its position,
as Python dicts do) or appends a new binding at the end. -/
def dictSet {α : Type} (m : List (String × α)) (k : String) (v : α) :
    List (String × α) :=
  match m with
  | [] => [(k, v)]
  | p :: rest => if p.1 = k then (k, v) :: rest else p :: dictSet rest k v

/-- `d.pop(k, None)`: removes the binding for `k` if present. -/
def dictPop {α : Type} (m : List (String × α)) (k : String) :
    List (String × α) :=
  match m with
  | [] => []
  | p :: rest => if p.1 = k then dictPop rest k else p :: dictPop rest k

/-! ### Data model (`common.types`, modelled from the spec where not in `src/`) -/

/-- Agent metadata payload (`AgentInfo`): name, type tag, description.
Modelled from the spec: `common/types.py` is not under `src/`; the spec's
AgentIdentity is "unique string name, human-readable description, a
type/category tag". -/
structure AgentInfo where
  name : String
  type : String
  desc : String
deriving DecidableEq, Repr

/-- Stored directory entry (`AgentEntry`): identity plus creation timestamp.
Modelled from the spec: AgentRecord = "AgentIdentity + creation timestamp". -/
structure AgentEntry where
  name : String
  desc : String
  type : String
  created_at : String
deriving DecidableEq, Repr

/-- A routed message (`AgentMessage`). Modelled from the spec: "sender
identity, target session identifier, payload content". -/
structure AgentMessage where
  sender : String
  comm_id : String
  content : String
deriving DecidableEq, Repr

/-- The agent directory backing store (`AgentRegistry.agents`), a mapping from
agent name to its stored entry. -/
abbrev Registry := List (String × AgentEntry)

/-! ### `AgentRegistry.register` (app_copy.py lines 82-92) -/

/-- `AgentRegistry.register`: if the name is already present, return without
touching the store; otherwise store a fresh entry built from the payload and
the current timestamp (the wall clock is external, so the timestamp is a
parameter). -/
def register (agents : Registry) (agent : AgentInfo) (timestamp : String) :
    Registry :=
  if dictContains agents agent.name then agents
  else dictSet agents agent.name
    ⟨agent.name, agent.desc, agent.type, timestamp⟩

/-- Number of stored records carrying a given name. -/
def countName (agents : Registry) (n : String) : Nat :=
  (agents.filter (fun p => p.1 = n)).length

/-! ### `AgentRegistry.query` (app_copy.py lines 109-127) -/

/-- The union request shape of `query`: a single name or a list of names. -/
inductive QueryInput where
  | one (name : String)
  | many (names : List String)
deriving DecidableEq, Repr

/-- The union response shape of `query`: a single optional record or a list of
optional records. -/
inductive QueryOutput where
  | one (r : Option AgentInfo)
  | many (rs : List (Option AgentInfo))
deriving DecidableEq, Repr

/-- Body of the lookup loop: a registered name yields an `AgentInfo` rebuilt
from the stored entry, an unknown name yields `None`. -/
def queryOne (agents : Registry) (agent_name : String) : Option AgentInfo :=
  match dictGet agents agent_name with
  | some entry => some ⟨agent_name, entry.type, entry.desc⟩
  | none => none

/-- `AgentRegistry.query`: normalises the input to a list of candidates, looks
each up, and returns `result[0]` for a single-name request. -/
def query (agents : Registry) : QueryInput → QueryOutput
  | .one n => .one (queryOne agents n)
  | .many ns => .many (ns.map (queryOne agents))

/-! ### `AgentRegistry.retrieve` (app_copy.py lines 95-106) -/

/-- One search hit returned by the external collaborator
(`search_via_config`): the fields of the matched agent that `retrieve`
reads via `hit.get(...)`. -/
structure Hit where
  name : String
  type : String
  desc : String
deriving DecidableEq, Repr

/-- The nested loop of `retrieve` over `res` flattened: walk the hits in
keyword order then rank order, keeping a hit only when its name is not in the
`deduplicate_ids` seen-set. -/
def dedupHits (seen : List String) : List Hit → List Hit
  | [] => []
  | h :: hs =>
    if h.name ∈ seen then dedupHits seen hs
    else h :: dedupHits (h.name :: seen) hs

/-- `AgentRegistry.retrieve` after the external search: `res` is the
per-keyword list of ranked hit lists; the nested `for hits in res: for hit in
hits:` loop visits exactly `res.flatten`; the surviving hits are converted to
`AgentInfo` records. -/
def retrieve (res : List (List Hit)) : List AgentInfo :=
  (dedupHits [] res.flatten).map (fun h => ⟨h.name, h.type, h.desc⟩)

/-- Names keeping only first occurrences, in order of first occurrence:
the reference merge-dedup policy the spec describes. -/
def firstOccurrences (seen : List String) : List String → List String
  | [] => []
  | n :: ns =>
    if n ∈ seen then firstOccurrences seen ns
    else n :: firstOccurrences (n :: seen) ns

/-! ### `SessionManager.teamup` (app_copy.py lines 139-149) and the
`/teamup` endpoint (lines 239-250) -/

/-- The session store (`SessionManager.sessions`): session id to the ordered
member-name list. -/
abbrev Sessions := List (String × List String)

/-- One stored chat record: the dict written by the `/teamup` endpoint with
keys `comm_id`, `agent_names`, `team_name`, `chat_record`. -/
structure ChatRecord where
  comm_id : String
  agent_names : List String
  team_name : String
  chat_record : List AgentMessage
deriving DecidableEq, Repr

/-- The chat record store (`chat_record_manager`). -/
abbrev ChatStore := List (String × ChatRecord)

/-- The `/teamup` request payload (`AgentRegistryTeamupParam`). Modelled from
the spec and the endpoint's field accesses: requester identity, ordered
member names, team display name. -/
structure TeamupParam where
  sender : String
  agent_names : List String
  team_name : String
deriving DecidableEq, Repr

/-- The `/teamup` endpoint's response dict: `comm_id`, `agent_names`, plus
the `team_name` key added by the endpoint. -/
structure TeamupResult where
  comm_id : String
  agent_names : List String
  team_name : String
deriving DecidableEq, Repr

/-- `SessionManager.teamup`: the fresh uuid is generated externally and
passed as `comm_id`; the loop keeps, in input order, exactly those names
present in the agent directory, then stores the group under the new id and
returns id and group. -/
def sessionTeamup (agents : Registry) (sessions : Sessions)
    (comm_id : String) (agent_names : List String) :
    Sessions × String × List String :=
  let session_group := agent_names.filter (fun n => dictContains agents n)
  (dictSet sessions comm_id session_group, comm_id, session_group)

/-- The `/teamup` endpoint: calls `SessionManager.teamup` on
`agent_names + [sender]`, adds the `team_name` key to the result, and
initialises the session's chat record with an empty message list (the
frontend mirroring step is modelled separately by `send_to_frontend`). -/
def teamupEndpoint (agents : Registry) (sessions : Sessions)
    (chat : ChatStore) (comm_id : String) (p : TeamupParam) :
    Sessions × ChatStore × TeamupResult :=
  let t := sessionTeamup agents sessions comm_id
    (p.agent_names ++ [p.sender])
  let chat' := dictSet chat t.2.1 ⟨t.2.1, t.2.2, p.team_name, []⟩
  (t.1, chat', ⟨t.2.1, t.2.2, p.team_name⟩)

/-! ### `ConnectionManager` (app_copy.py lines 45-68) -/

/-- The connection registry `agent_to_websocket`; live channels are opaque
numeric handles. -/
abbrev ConnMap := List (String × Nat)

/-- A runtime exception escaping the routing code uncaught. -/
inductive RtError where
  | unboundLocal
deriving DecidableEq, Repr

/-- `ConnectionManager.send_personal_message`: the dictionary lookup sits in
a bare try/except that only logs, but the `send_text` call is OUTSIDE the
try; for a receiver with no binding the local `websocket` is never assigned
and the send raises `UnboundLocalError`. For a bound receiver the message is
written to its channel. -/
def send_personal_message (conns : ConnMap) (receiver : String) :
    Except RtError Nat :=
  match dictGet conns receiver with
  | some ws => .ok ws
  | none => .error .unboundLocal

/-- The fan-out loop of the websocket endpoint (lines 184-185): deliver to
each member in order; an exception from `send_personal_message` escapes the
loop, so members after the failing one receive nothing. Returns the
deliveries that happened and the escaping exception, if any. -/
def fanOut (conns : ConnMap) : List String →
    List (String × Nat) × Option RtError
  | [] => ([], none)
  | r :: rs =>
    match send_personal_message conns r with
    | .ok ws =>
      let rest := fanOut conns rs
      ((r, ws) :: rest.1, rest.2)
    | .error e => ([], some e)

/-! ### `send_to_frontend` (app_copy.py lines 254-262) -/

/-- A JSON object: ordered keys to serialised values. -/
abbrev JsonDict := List (String × String)

/-- `copy.deepcopy` of a JSON object: a structurally equal value sharing no
mutable state with the original, so mutating the copy cannot affect the
original. In the pure model the copy is the same value. -/
def deepcopy (data : JsonDict) : JsonDict := data

/-- `send_to_frontend`: if no observer is bound, do nothing; otherwise
deep-copy the payload, set `frontend_type` on the copy, and send the copy.
Returns the caller's dict as it stands after the call, together with the
channel and payload written to the observer, if any; because only the
deepcopy is mutated, the caller's dict comes back unchanged. -/
def send_to_frontend (frontend_ws : Option Nat) (data : JsonDict)
    (type : String) : JsonDict × Option (Nat × JsonDict) :=
  match frontend_ws with
  | none => (data, none)
  | some ws =>
    let new_result := dictSet (deepcopy data) "frontend_type" type
    (data, some (ws, new_result))

/-! ### The websocket receive loop (app_copy.py lines 163-186) -/

/-- Modelled from the spec: `AutoStoredDict.__getitem__`
(`common/utils/database_utils.py`, not under `src/`) as used by the chat-log
append on an id absent from the store. Spec §4.4: on an unknown session id
the append "must not crash — ... log and still append a best-effort
unassociated record"; so the lookup the append starts from yields a fresh
empty record for that id. -/
def chatRecordOrFresh (chat : ChatStore) (cid : String) : ChatRecord :=
  match dictGet chat cid with
  | some r => r
  | none => ⟨cid, [], "", []⟩

/-- Modelled from the spec: the session-store lookup feeding the fan-out on
an id absent from the store (`AutoStoredDict`, not under `src/`). Spec §9:
the router "still attempts fan-out using whatever (possibly nonexistent)
membership is found"; a missing id yields no members. -/
def membersOrNone (sessions : Sessions) (cid : String) : List String :=
  (dictGet sessions cid).getD []

/-- `json.loads(msg.model_dump_json())`: the message as a JSON object. -/
def messageDict (msg : AgentMessage) : JsonDict :=
  [("sender", msg.sender), ("comm_id", msg.comm_id),
   ("content", msg.content)]

/-- Everything observable about one pass of the routing pipeline. -/
structure RouteResult where
  warnedUnknownSession : Bool
  chat : ChatStore
  mirrored : Option (Nat × JsonDict)
  delivered : List (String × Nat)
  error : Option RtError
deriving DecidableEq, Repr

/-- Lines 172-186 for a successfully parsed message: warn when the session
id is unknown, append the message to the session's chat record, mirror to
the frontend, then fan out to the session's membership. -/
def routeMessage (sessions : Sessions) (chat : ChatStore) (conns : ConnMap)
    (frontend_ws : Option Nat) (msg : AgentMessage) : RouteResult :=
  let record := chatRecordOrFresh chat msg.comm_id
  let record' := { record with chat_record := record.chat_record ++ [msg] }
  let chat' := dictSet chat msg.comm_id record'
  let mirror := (send_to_frontend frontend_ws (messageDict msg) "message").2
  let fo := fanOut conns (membersOrNone sessions msg.comm_id)
  ⟨!(dictContains sessions msg.comm_id), chat', mirror, fo.1, fo.2⟩

/-- One iteration of the `while True` receive loop. `lastParsed` is the
value the Python local `parsed_data` holds from earlier iterations (`none`
before any successful parse); `parseResult` is the outcome of
`AgentMessage.model_validate_json` on the received frame (`none` on a
validation error, which the bare `except` only logs — there is no
`continue`, so control falls through to the uses of `parsed_data`). With no
earlier successful parse that fall-through raises `UnboundLocalError`;
otherwise the PREVIOUS message is routed again. -/
def receiveStep (sessions : Sessions) (chat : ChatStore) (conns : ConnMap)
    (frontend_ws : Option Nat) (lastParsed : Option AgentMessage)
    (parseResult : Option AgentMessage) :
    Option AgentMessage × RouteResult :=
  let parsed_data := match parseResult with
    | some m => some m
    | none => lastParsed
  match parsed_data with
  | none => (none, ⟨false, chat, none, [], some .unboundLocal⟩)
  | some m => (some m, routeMessage sessions chat conns frontend_ws m)

/-! ### `/fetch_chat_record` (app_copy.py lines 272-278) -/

/-- The fetch request's `comm_id` field: absent, a single id, or a list. -/
inductive FetchParam where
  | all
  | one (comm_id : String)
  | many (comm_ids : List String)
deriving DecidableEq, Repr

/-- Modelled from the spec: the chat-store lookup in the fetch response for
an id absent from the store (`AutoStoredDict`, not under `src/`). Spec §4.4
`fetch`: "absent ids simply omitted or mapped to nothing — ... must not fail
the whole request for one bad id"; so an absent id maps to `none`. -/
def fetchLookup (chat : ChatStore) (cid : String) : Option ChatRecord :=
  dictGet chat cid

/-- `/fetch_chat_record`: no id returns the whole store (`todict`); a single
id is first wrapped into a one-element list; a list of ids is answered by a
comprehension over exactly those ids. -/
def fetch_chat_record (chat : ChatStore) :
    FetchParam → List (String × Option ChatRecord)
  | .all => chat.map (fun p => (p.1, some p.2))
  | .one cid => [cid].map (fun c => (c, fetchLookup chat c))
  | .many cids => cids.map (fun c => (c, fetchLookup chat c))

/-! ### URL encoding and the connection lifecycle (app_copy.py lines
152-190) -/

/-- Value of an ASCII hex digit (`urllib.parse.unquote` accepts either
case). -/
def hexDigit (c : Char) : Option Nat :=
  if c.isDigit then some (c.toNat - 48)
  else if c.isUpper && c ≤ 'F' then some (c.toNat - 55)
  else if c.isLower && c ≤ 'f' then some (c.toNat - 87)
  else none

/-- `urllib.parse.unquote` on the ASCII fragment: each valid `%XX` escape
becomes the character with code `XX`; an invalid escape keeps the literal
`%` and continues scanning right after it. The first argument is structural
fuel; every step consumes at least one character, so fuel equal to the
input length (as supplied by `unquote`) never runs out. -/
def unquoteChars : Nat → List Char → List Char
  | 0, l => l
  | _ + 1, [] => []
  | fuel + 1, c :: rest =>
    if c = '%' then
      match rest with
      | a :: b :: rest' =>
        match hexDigit a, hexDigit b with
        | some x, some y =>
          Char.ofNat (16 * x + y) :: unquoteChars fuel rest'
        | _, _ => '%' :: unquoteChars fuel rest
      | _ => '%' :: unquoteChars fuel rest
    else c :: unquoteChars fuel rest

/-- Characters `urllib.parse.quote` leaves unescaped with its default
`safe='/'`: ASCII alphanumerics, `_.-~` and `/`. -/
def quoteSafe (c : Char) : Bool :=
  c.isAlphanum || c = '_' || c = '.' || c = '-' || c = '~' || c = '/'

/-- Upper-case hex digit for a value below 16. -/
def hexChar (n : Nat) : Char :=
  Char.ofNat (if n < 10 then n + 48 else n + 55)

/-- Percent-escape of one character (two upper-case hex digits). -/
def percentEscape (c : Char) : List Char :=
  ['%', hexChar (c.toNat / 16 % 16), hexChar (c.toNat % 16)]

/-- `urllib.parse.quote` on the ASCII fragment: percent-encode every
character outside the safe set. -/
def quoteChars (l : List Char) : List Char :=
  (l.map (fun c => if quoteSafe c then [c] else percentEscape c)).flatten

def unquote (s : String) : String := ⟨unquoteChars s.data.length s.data⟩

def quote (s : String) : String := ⟨quoteChars s.data⟩

/-- The connect half of `websocket_endpoint`: `connection_manager.connect`
is called with the path value `agent_name` BEFORE the `unquote` on line 159,
so the binding is keyed by the raw (still-encoded) name. -/
def wsConnect (conns : ConnMap) (agent_name : String) (ws : Nat) : ConnMap :=
  dictSet conns agent_name ws

/-- The disconnect handler (lines 188-190): the decoded local name is
re-encoded with `quote` and that key is removed from the registry. -/
def wsDisconnect (conns : ConnMap) (agent_name_raw : String) : ConnMap :=
  dictPop conns (quote (unquote agent_name_raw))

/-! ### Theorems -/

theorem dictGet_dictSet_self {α : Type} (m : List (String × α)) (k : String)
    (v : α) : dictGet (dictSet m k v) k = some v := by
  induction m with
  | nil => simp [dictGet, dictSet]
  | cons a l ih =>
    by_cases ha : a.1 = k
    · simp [dictGet, dictSet, ha]
    · simp [dictGet, dictSet, ha, ih]

theorem dictGet_dictSet_ne {α : Type} (m : List (String × α)) (k k' : String)
    (v : α) (hne : k' ≠ k) : dictGet (dictSet m k v) k' = dictGet m k' := by
  induction m with
  | nil => simp [dictGet, dictSet, Ne.symm hne]
  | cons a l ih =>
    by_cases ha : a.1 = k
    · have ha' : ¬ a.1 = k' := by rw [ha]; exact Ne.symm hne
      simp only [dictSet, if_pos ha]
      simp [dictGet, Ne.symm hne, ha']
    · simp only [dictSet, if_neg ha]
      by_cases ha' : a.1 = k'
      · simp [dictGet, ha']
      · simp [dictGet, ha', ih]

theorem dictGet_dictPop_self {α : Type} (m : List (String × α)) (k : String) :
    dictGet (dictPop m k) k = none := by
  induction m with
  | nil => rfl
  | cons a l ih =>
    by_cases ha : a.1 = k
    · simpa [dictPop, ha] using ih
    · simpa [dictGet, dictPop, ha] using ih

theorem dictGet_dictPop_ne {α : Type} (m : List (String × α)) (k k' : String)
    (hne : k' ≠ k) : dictGet (dictPop m k) k' = dictGet m k' := by
  induction m with
  | nil => rfl
  | cons a l ih =>
    by_cases ha : a.1 = k
    · have ha' : ¬ a.1 = k' := by rw [ha]; exact Ne.symm hne
      simp only [dictPop, if_pos ha]
      simpa [dictGet, ha'] using ih
    · simp only [dictPop, if_neg ha]
      by_cases ha' : a.1 = k'
      · simp [dictGet, ha']
      · simpa [dictGet, ha'] using ih

theorem dictContains_iff_isSome {α : Type} (m : List (String × α))
    (k : String) : dictContains m k = true ↔ (dictGet m k).isSome := by
  induction m with
  | nil => simp [dictContains, dictGet]
  | cons a l ih =>
    by_cases ha : a.1 = k
    · simp [dictContains, dictGet, ha]
    · simpa [dictContains, dictGet, ha] using ih

theorem dictGet_eq_none_of_not_contains {α : Type} {m : List (String × α)}
    {k : String} (h : dictContains m k = false) : dictGet m k = none := by
  have := dictContains_iff_isSome m k
  rw [h] at this
  cases hg : dictGet m k with
  | none => rfl
  | some v => simp [hg] at this

theorem dedupHits_names (seen : List String) (l : List Hit) :
    (dedupHits seen l).map Hit.name = firstOccurrences seen (l.map Hit.name)
    := by
  induction l generalizing seen with
  | nil => rfl
  | cons h hs ih =>
    by_cases hmem : h.name ∈ seen
    · simp [dedupHits, firstOccurrences, hmem, ih]
    · simp [dedupHits, firstOccurrences, hmem, ih]

theorem firstOccurrences_nodup (seen : List String) (l : List String) :
    (firstOccurrences seen l).Nodup
    ∧ ∀ x ∈ firstOccurrences seen l, x ∉ seen := by
  induction l generalizing seen with
  | nil => exact ⟨List.nodup_nil, by simp [firstOccurrences]⟩
  | cons n ns ih =>
    by_cases hmem : n ∈ seen
    · simpa [firstOccurrences, hmem] using ih seen
    · obtain ⟨hnd, hnotin⟩ := ih (n :: seen)
      refine ⟨?_, ?_⟩
      · simp only [firstOccurrences, if_neg hmem, List.nodup_cons]
        exact ⟨fun hx => (hnotin n hx) (List.mem_cons_self n seen), hnd⟩
      · intro x hx
        simp only [firstOccurrences, if_neg hmem, List.mem_cons] at hx
        rcases hx with rfl | hx
        · exact hmem
        · intro hxs
          exact hnotin x hx (List.mem_cons_of_mem _ hxs)

theorem dedupHits_first_match (seen : List String) (l : List Hit) :
    ∀ h ∈ dedupHits seen l,
      h.name ∉ seen
      ∧ l.find? (fun h' => h'.name = h.name) = some h := by
  induction l generalizing seen with
  | nil => intro h hmem; simp [dedupHits] at hmem
  | cons x xs ih =>
    intro h hmem
    by_cases hx : x.name ∈ seen
    · rw [dedupHits, if_pos hx] at hmem
      obtain ⟨hns, hfind⟩ := ih seen h hmem
      have hne : ¬ x.name = h.name := fun he => hns (he ▸ hx)
      refine ⟨hns, ?_⟩
      rw [List.find?_cons]
      simp [hne, hfind]
    · rw [dedupHits, if_neg hx] at hmem
      rcases List.mem_cons.mp hmem with rfl | hmem'
      · refine ⟨hx, ?_⟩
        rw [List.find?_cons]
        simp
      · obtain ⟨hns, hfind⟩ := ih (x.name :: seen) h hmem'
        have hnx : ¬ x.name = h.name := by
          intro he
          exact hns (he ▸ List.mem_cons_self x.name seen)
        have hns' : h.name ∉ seen :=
          fun hs => hns (List.mem_cons_of_mem _ hs)
        refine ⟨hns', ?_⟩
        rw [List.find?_cons]
        simp [hnx, hfind]

theorem dictContains_dictSet_self {α : Type} (m : List (String × α))
    (k : String) (v : α) : dictContains (dictSet m k v) k = true := by
  induction m with
  | nil => simp [dictSet, dictContains]
  | cons a l ih =>
    by_cases ha : a.1 = k
    · simp [dictSet, dictContains, ha]
    · simp [dictSet, dictContains, ha, ih]

theorem countName_dictSet_fresh {m : Registry} {k : String} {v : AgentEntry}
    (h : dictContains m k = false) : countName (dictSet m k v) k = 1 := by
  induction m with
  | nil => simp [dictSet, countName, List.filter]
  | cons a l ih =>
    simp only [dictContains, Bool.or_eq_false_iff, decide_eq_false_iff_not]
      at h
    simp only [dictSet, if_neg h.1, countName, List.filter_cons,
      decide_eq_false h.1, Bool.false_eq_true, if_false]
    exact ih h.2

/-- C1: `retrieve` merges the per-keyword ranked hit lists in keyword order,
then rank order, deduplicating by agent name with the first occurrence kept:
the output names are exactly the first occurrences of the flattened hit
names in order, every output record is built from the first hit carrying its
name, no name repeats, and `[[A,B],[B,C]]` yields exactly `[A,B,C]`. -/
theorem retrieve_merge_dedup_first_wins (res : List (List Hit)) :
    ((retrieve res).map AgentInfo.name).Nodup
    ∧ (retrieve res).map AgentInfo.name
        = firstOccurrences [] (res.flatten.map Hit.name)
    ∧ (∀ a ∈ retrieve res,
        res.flatten.find? (fun h => h.name = a.name)
          = some ⟨a.name, a.type, a.desc⟩)
    ∧ (∀ hA hB hC : Hit, hA.name ≠ hB.name → hB.name ≠ hC.name →
        hA.name ≠ hC.name →
        retrieve [[hA, hB], [hB, hC]]
          = [⟨hA.name, hA.type, hA.desc⟩, ⟨hB.name, hB.type, hB.desc⟩,
             ⟨hC.name, hC.type, hC.desc⟩]) := by
  have hnames : (retrieve res).map AgentInfo.name
      = (dedupHits [] res.flatten).map Hit.name := by
    simp [retrieve, List.map_map]
  refine ⟨?_, ?_, ?_, ?_⟩
  · rw [hnames, dedupHits_names]
    exact (firstOccurrences_nodup [] (res.flatten.map Hit.name)).1
  · rw [hnames, dedupHits_names]
  · intro a ha
    simp only [retrieve, List.mem_map] at ha
    obtain ⟨h, hmem, rfl⟩ := ha
    obtain ⟨-, hfind⟩ := dedupHits_first_match [] res.flatten h hmem
    exact hfind
  · intro hA hB hC hAB hBC hAC
    simp [retrieve, dedupHits, List.flatten, hAB, Ne.symm hAB, hBC,
      Ne.symm hBC, hAC, Ne.symm hAC]

theorem retrieve_merge_dedup_first_wins_witness :
    retrieve [[Hit.mk "A" "tA" "dA", Hit.mk "B" "tB" "dB"],
              [Hit.mk "B" "tB" "dB", Hit.mk "C" "tC" "dC"]]
      = [AgentInfo.mk "A" "tA" "dA", AgentInfo.mk "B" "tB" "dB",
         AgentInfo.mk "C" "tC" "dC"]
    ∧ ([[Hit.mk "A" "tA" "dA", Hit.mk "B" "tB" "dB"]].flatten).find?
        (fun h => h.name = "A") = some (Hit.mk "A" "tA" "dA") :=
  ⟨(retrieve_merge_dedup_first_wins []).2.2.2
      (Hit.mk "A" "tA" "dA") (Hit.mk "B" "tB" "dB") (Hit.mk "C" "tC" "dC")
      (by decide) (by decide) (by decide),
   (retrieve_merge_dedup_first_wins
      [[Hit.mk "A" "tA" "dA", Hit.mk "B" "tB" "dB"]]).2.2.1
      (AgentInfo.mk "A" "tA" "dA") (by decide)⟩

/-- C7: registering the same name twice performs no mutation on the second
call (state identical, so the existing record's fields and timestamp are
unchanged and no error arises) and, for a name that was fresh before the
first call, the directory afterwards holds exactly one record under that
name, and `query` returns a single record equal to the originally registered
values. -/
theorem register_twice_idempotent (agents : Registry) (a b : AgentInfo)
    (t1 t2 : String) (hname : b.name = a.name) :
    register (register agents a t1) b t2 = register agents a t1
    ∧ (dictContains agents a.name = false →
        countName (register (register agents a t1) b t2) a.name = 1
        ∧ query (register (register agents a t1) b t2) (.one a.name)
            = .one (some ⟨a.name, a.type, a.desc⟩)) := by
  have hcontains : dictContains (register agents a t1) a.name = true := by
    unfold register
    by_cases h : dictContains agents a.name
    · simp [h]
    · simp only [Bool.not_eq_true] at h
      simp only [h, Bool.false_eq_true, if_false]
      exact dictContains_dictSet_self agents a.name _
  have hsecond : register (register agents a t1) b t2
      = register agents a t1 := by
    rw [show register (register agents a t1) b t2
        = if dictContains (register agents a t1) b.name then
            register agents a t1
          else dictSet (register agents a t1) b.name
            ⟨b.name, b.desc, b.type, t2⟩ from rfl]
    rw [hname, hcontains]
    simp
  refine ⟨hsecond, fun hfresh => ?_⟩
  rw [hsecond]
  unfold register
  simp only [hfresh, Bool.false_eq_true, if_false]
  constructor
  · exact countName_dictSet_fresh hfresh
  · simp [query, queryOne, dictGet_dictSet_self]

theorem register_twice_idempotent_witness :
    register (register [] (AgentInfo.mk "A" "t" "d") "t1")
        (AgentInfo.mk "A" "t2" "d2") "t2"
      = register [] (AgentInfo.mk "A" "t" "d") "t1"
    ∧ countName (register (register [] (AgentInfo.mk "A" "t" "d") "t1")
        (AgentInfo.mk "A" "t2" "d2") "t2") "A" = 1
    ∧ query (register (register [] (AgentInfo.mk "A" "t" "d") "t1")
        (AgentInfo.mk "A" "t2" "d2") "t2") (.one "A")
      = .one (some (AgentInfo.mk "A" "t" "d")) := by
  have h := register_twice_idempotent [] (AgentInfo.mk "A" "t" "d")
    (AgentInfo.mk "A" "t2" "d2") "t1" "t2" rfl
  exact ⟨h.1, (h.2 (by decide)).1, (h.2 (by decide)).2⟩

/-- C8: `query` preserves request shape and order: a single name yields a
single optional record, a list yields a list of the same length where the
i-th answer is the lookup of the i-th requested name; registered names map
to their record and unknown names map to `none` rather than an error. -/
theorem query_shape_preserved (agents : Registry) (n : String)
    (ns : List String) :
    query agents (.one n) = .one (queryOne agents n)
    ∧ (∃ rs, query agents (.many ns) = .many rs
        ∧ rs.length = ns.length
        ∧ ∀ i : Nat, rs[i]? = (ns[i]?).map (queryOne agents))
    ∧ (∀ m, dictContains agents m = false → queryOne agents m = none)
    ∧ (∀ m e, dictGet agents m = some e →
        queryOne agents m = some ⟨m, e.type, e.desc⟩) := by
  refine ⟨rfl, ⟨ns.map (queryOne agents), rfl, by simp, ?_⟩, ?_, ?_⟩
  · intro i
    simp [List.getElem?_map]
  · intro m hm
    simp [queryOne, dictGet_eq_none_of_not_contains hm]
  · intro m e he
    simp [queryOne, he]

theorem query_shape_preserved_witness :
    queryOne [("A", AgentEntry.mk "A" "dA" "tA" "ts")] "B" = none
    ∧ queryOne [("A", AgentEntry.mk "A" "dA" "tA" "ts")] "A"
        = some (AgentInfo.mk "A" "tA" "dA") :=
  ⟨(query_shape_preserved [("A", AgentEntry.mk "A" "dA" "tA" "ts")] "A"
      []).2.2.1 "B" (by decide),
   (query_shape_preserved [("A", AgentEntry.mk "A" "dA" "tA" "ts")] "A"
      []).2.2.2 "A" (AgentEntry.mk "A" "dA" "tA" "ts") (by decide)⟩

/-- C2 counterexample: with only `X` registered, requesting `[X, X]` yields
membership `[X, X]` — duplicates in the request are NOT removed, refuting
the claim's "with duplicates removed". -/
theorem teamup_duplicates_not_removed :
    (sessionTeamup [("X", AgentEntry.mk "X" "d" "t" "ts")] [] "id"
        ["X", "X"]).2.2 = ["X", "X"]
    ∧ (["X", "X"] : List String) ≠ ["X"] := by
  exact ⟨by decide, by decide⟩

/-- C2 amended: the membership list is exactly the input list restricted to
names registered in the agent directory, in input order, duplicates
preserved (not removed); unknown names — including an unregistered
requester appended by the endpoint — are silently dropped with no error,
an empty result is tolerated, and the membership is stored under the fresh
session id. -/
theorem teamup_members_filter (agents : Registry) (sessions : Sessions)
    (cid : String) (names : List String) (chat : ChatStore)
    (p : TeamupParam) :
    (sessionTeamup agents sessions cid names).2.2
        = names.filter (fun n => dictContains agents n)
    ∧ (sessionTeamup agents sessions cid names).2.1 = cid
    ∧ dictGet (sessionTeamup agents sessions cid names).1 cid
        = some (names.filter (fun n => dictContains agents n))
    ∧ (teamupEndpoint agents sessions chat cid p).2.2.agent_names
        = (p.agent_names ++ [p.sender]).filter
            (fun n => dictContains agents n)
    ∧ (dictContains agents p.sender = false →
        p.sender ∉ (teamupEndpoint agents sessions chat cid p).2.2.agent_names)
    := by
  refine ⟨rfl, rfl, dictGet_dictSet_self _ _ _, rfl, ?_⟩
  intro hs hmem
  have := (List.mem_filter.mp hmem).2
  rw [hs] at this
  exact absurd this (by simp)

theorem teamup_members_filter_witness :
    (sessionTeamup [("X", AgentEntry.mk "X" "d" "t" "ts")] [] "id"
        ["X", "Y"]).2.2 = ["X"]
    ∧ "S" ∉ (teamupEndpoint [("X", AgentEntry.mk "X" "d" "t" "ts")] [] []
        "id" (TeamupParam.mk "S" ["X"] "team")).2.2.agent_names := by
  have h := teamup_members_filter [("X", AgentEntry.mk "X" "d" "t" "ts")] []
    "id" ["X", "Y"] [] (TeamupParam.mk "S" ["X"] "team")
  exact ⟨h.1.trans (by decide), h.2.2.2.2 (by decide)⟩

/-- C4 for the code as written: fanning out to members `[A, B]` where only
`B` has a bound channel: the failed lookup for `A` is logged, but the send
still executes on the unassigned local and raises `UnboundLocalError`; the
exception aborts the fan-out, so the reachable member `B` — whose channel
is bound — receives nothing, refuting "all reachable members still receive
the message". -/
theorem fanout_aborts_on_unreachable :
    dictGet [("B", 1)] "B" = some 1
    ∧ fanOut [("B", 1)] ["A", "B"] = ([], some RtError.unboundLocal) := by
  exact ⟨by decide, by decide⟩

/-- C10: mirroring never mutates the caller's payload: after every call the
caller's dict is unchanged (so it gains no `frontend_type` key it did not
already have), the event tag is added only to the copy that is sent, and
with no observer bound the call is a no-op that sends nothing. -/
theorem send_to_frontend_no_mutation (frontend_ws : Option Nat)
    (data : JsonDict) (ty : String) :
    (send_to_frontend frontend_ws data ty).1 = data
    ∧ send_to_frontend none data ty = (data, none)
    ∧ (∀ ws, send_to_frontend (some ws) data ty
        = (data, some (ws, dictSet data "frontend_type" ty)))
    ∧ (dictGet data "frontend_type" = none →
        dictGet (send_to_frontend frontend_ws data ty).1 "frontend_type"
            = none
        ∧ ∀ ws d, (send_to_frontend (some ws) data ty).2 = some (ws, d) →
            dictGet d "frontend_type" = some ty) := by
  refine ⟨?_, rfl, fun ws => rfl, fun hno => ⟨?_, fun ws d hd => ?_⟩⟩
  · cases frontend_ws <;> rfl
  · cases frontend_ws <;> simpa [send_to_frontend] using hno
  · simp only [send_to_frontend, deepcopy, Option.some_inj, Prod.mk.injEq]
      at hd
    rw [← hd.2]
    exact dictGet_dictSet_self data "frontend_type" ty

theorem send_to_frontend_no_mutation_witness :
    (send_to_frontend (some 5) [("k", "v")] "message").1 = [("k", "v")]
    ∧ dictGet (send_to_frontend (some 5) [("k", "v")] "message").1
        "frontend_type" = none := by
  have h := send_to_frontend_no_mutation (some 5) [("k", "v")] "message"
  exact ⟨h.1, (h.2.2.2 (by decide)).1⟩

/-- C3 for the code as written: a malformed frame is NOT dropped. With no
previously parsed message, the missing `continue` after the logging
`except` lets control reach the unassigned `parsed_data`, and the resulting
`UnboundLocalError` escapes the loop, terminating the session; after an
earlier successful parse, a malformed frame instead causes the PREVIOUS
message to be appended and fanned out again. -/
theorem malformed_frame_not_dropped :
    (receiveStep [] [] [] none none none).2.error
        = some RtError.unboundLocal
    ∧ receiveStep [] [] [] none (some (AgentMessage.mk "a" "s" "x")) none
        = (some (AgentMessage.mk "a" "s" "x"),
           routeMessage [] [] [] none (AgentMessage.mk "a" "s" "x")) := by
  exact ⟨rfl, rfl⟩

/-- C5: for a parsed message whose session id is absent from the session
store, the routing step warns, raises nothing, still appends the message to
a best-effort record under the unknown id, and proceeds to the mirroring
and fan-out steps (the spec-modelled store lookups yield a fresh record and
an empty membership, so the fan-out trivially succeeds). -/
theorem unknown_session_permissive (sessions : Sessions) (chat : ChatStore)
    (conns : ConnMap) (frontend_ws : Option Nat) (msg : AgentMessage)
    (hunknown : dictContains sessions msg.comm_id = false) :
    (routeMessage sessions chat conns frontend_ws msg).warnedUnknownSession
        = true
    ∧ dictGet (routeMessage sessions chat conns frontend_ws msg).chat
        msg.comm_id
        = some { chatRecordOrFresh chat msg.comm_id with
            chat_record :=
              (chatRecordOrFresh chat msg.comm_id).chat_record ++ [msg] }
    ∧ (routeMessage sessions chat conns frontend_ws msg).mirrored
        = (send_to_frontend frontend_ws (messageDict msg) "message").2
    ∧ (routeMessage sessions chat conns frontend_ws msg).delivered = []
    ∧ (routeMessage sessions chat conns frontend_ws msg).error = none := by
  have hmembers : membersOrNone sessions msg.comm_id = [] := by
    simp [membersOrNone, dictGet_eq_none_of_not_contains hunknown]
  refine ⟨?_, ?_, rfl, ?_, ?_⟩
  · simp [routeMessage, hunknown]
  · exact dictGet_dictSet_self _ _ _
  · simp [routeMessage, hmembers, fanOut]
  · simp [routeMessage, hmembers, fanOut]

theorem unknown_session_permissive_witness :
    (routeMessage [("s1", ["A"])] [] [] none
        (AgentMessage.mk "a" "s2" "x")).warnedUnknownSession = true
    ∧ dictGet (routeMessage [("s1", ["A"])] [] [] none
        (AgentMessage.mk "a" "s2" "x")).chat "s2"
        = some (ChatRecord.mk "s2" [] "" [AgentMessage.mk "a" "s2" "x"])
    ∧ (routeMessage [("s1", ["A"])] [] [] none
        (AgentMessage.mk "a" "s2" "x")).error = none := by
  have h := unknown_session_permissive [("s1", ["A"])] [] [] none
    (AgentMessage.mk "a" "s2" "x") (by decide)
  exact ⟨h.1, h.2.1, h.2.2.2.2⟩

/-- C6: with no session id the fetch returns every stored record; with a
single id or a list of ids the response keys are exactly the requested ids
(and nothing else), each mapped to its stored record; an id absent from the
store maps to `none` instead of failing the request (the function is
total). -/
theorem fetch_chat_record_shape (chat : ChatStore) (cid : String)
    (cids : List String) :
    fetch_chat_record chat .all = chat.map (fun p => (p.1, some p.2))
    ∧ fetch_chat_record chat (.one cid) = [(cid, dictGet chat cid)]
    ∧ (fetch_chat_record chat (.many cids)).map Prod.fst = cids
    ∧ (∀ i : Nat, (fetch_chat_record chat (.many cids))[i]?
        = (cids[i]?).map (fun c => (c, dictGet chat c)))
    ∧ (∀ c ∈ cids, dictContains chat c = false →
        (c, (none : Option ChatRecord))
          ∈ fetch_chat_record chat (.many cids)) := by
  refine ⟨rfl, rfl, ?_, ?_, ?_⟩
  · simp [fetch_chat_record, Function.comp_def]
  · intro i
    simp [fetch_chat_record, List.getElem?_map, fetchLookup]
  · intro c hc habs
    have : (c, fetchLookup chat c) ∈ fetch_chat_record chat (.many cids) :=
      List.mem_map_of_mem _ hc
    rwa [show fetchLookup chat c = none from
      dictGet_eq_none_of_not_contains habs] at this

theorem fetch_chat_record_shape_witness :
    (fetch_chat_record [("s1", ChatRecord.mk "s1" ["A"] "tm" [])]
        (.many ["s1", "s9"])).map Prod.fst = ["s1", "s9"]
    ∧ ("s9", (none : Option ChatRecord))
        ∈ fetch_chat_record [("s1", ChatRecord.mk "s1" ["A"] "tm" [])]
            (.many ["s1", "s9"]) := by
  have h := fetch_chat_record_shape
    [("s1", ChatRecord.mk "s1" ["A"] "tm" [])] "s1" ["s1", "s9"]
  exact ⟨h.2.2.1, h.2.2.2.2 "s9" (by decide) (by decide)⟩

/-- C9 counterexample: for the raw path name `a%20b` the binding made on
connect is keyed by the raw name, not by the decoded name `a b` — the
decoded key has no binding; and for the raw name `a b` (a name the
transport may already have decoded) the disconnect removes the re-encoded
key `a%20b`, so the binding keyed `a b` survives the disconnect. Both halves
of the claim fail. -/
theorem ws_decoded_key_counterexample :
    unquote "a%20b" = "a b"
    ∧ dictGet (wsConnect [] "a%20b" 0) "a b" = none
    ∧ dictGet (wsConnect [] "a%20b" 0) "a%20b" = some 0
    ∧ dictGet (wsDisconnect (wsConnect [] "a b" 0) "a b") "a b" = some 0 := by
  refine ⟨?_, by decide, by decide, ?_⟩
  · decide
  · decide

/-- C9 amended: the connection-registry key is the RAW path name as
received (binding created before any decoding), and on disconnect the key
removed is the re-encoding of the decoded name; hence after disconnect the
agent's binding is gone precisely when re-encoding the decoded raw name
reproduces the raw name (true for canonically encoded names), and otherwise
a stale binding remains. -/
theorem ws_raw_key_lifecycle (conns : ConnMap) (raw : String) (ws : Nat) :
    dictGet (wsConnect conns raw ws) raw = some ws
    ∧ wsDisconnect (wsConnect conns raw ws) raw
        = dictPop (wsConnect conns raw ws) (quote (unquote raw))
    ∧ (quote (unquote raw) = raw →
        dictGet (wsDisconnect (wsConnect conns raw ws) raw) raw = none)
    ∧ (quote (unquote raw) ≠ raw →
        dictGet (wsDisconnect (wsConnect conns raw ws) raw) raw = some ws)
    := by
  refine ⟨dictGet_dictSet_self _ _ _, rfl, ?_, ?_⟩
  · intro h
    rw [wsDisconnect, h]
    exact dictGet_dictPop_self _ _
  · intro h
    rw [wsDisconnect, dictGet_dictPop_ne _ _ _ (Ne.symm h)]
    exact dictGet_dictSet_self _ _ _

theorem ws_raw_key_lifecycle_witness :
    dictGet (wsDisconnect (wsConnect [] "a%20b" 3) "a%20b") "a%20b" = none
    ∧ dictGet (wsDisconnect (wsConnect [] "a b" 3) "a b") "a b" = some 3 := by
  have h1 := ws_raw_key_lifecycle [] "a%20b" 3
  have h2 := ws_raw_key_lifecycle [] "a b" 3
  exact ⟨h1.2.2.1 (by decide), h2.2.2.2 (by decide)⟩

end IoA
